import Mathlib

/-!
Verification development for the R2 quota-controller worker (multi-metric
variant of `src/index.ts`).

The embedding follows the source: JavaScript numbers are modelled as
rationals extended with the three non-finite values (`nan`, `inf`,
`negInf`), JSON payloads as a tree of numbers/strings/booleans/null/
arrays/objects (object field lists carry the enumeration order), and the
orchestrating `runQuotaController` as a pure function from its
collaborator responses to a result together with the list of outbound
calls it performs (access-key PATCH and KV put), so that side-effect
claims become statements about that call trace.
-/

/-- A JavaScript number: a finite rational or one of the non-finite values. -/
inductive JSNum where
  | num (q : ℚ)
  | nan
  | inf
  | negInf
deriving DecidableEq

/-- JS `Number.isFinite`. -/
def JSNum.isFinite : JSNum → Bool
  | .num _ => true
  | _ => false

/-- JS `<` on numbers (false whenever NaN is involved). -/
def jsLt : JSNum → JSNum → Bool
  | .num a, .num b => a < b
  | .num _, .inf => true
  | .negInf, .num _ => true
  | .negInf, .inf => true
  | _, _ => false

/-- JS `<=` on numbers (false whenever NaN is involved). -/
def jsLe : JSNum → JSNum → Bool
  | .num a, .num b => a ≤ b
  | .num _, .inf => true
  | .negInf, .num _ => true
  | .negInf, .negInf => true
  | .negInf, .inf => true
  | .inf, .inf => true
  | _, _ => false

/-- JS `>` on numbers. -/
def jsGt (a b : JSNum) : Bool := jsLt b a

/-- JS `>=` on numbers. -/
def jsGe (a b : JSNum) : Bool := jsLe b a

/-- JS `Math.floor(x * r)` for a finite non-negative factor `r`
(the source only uses `r = 0.9` and `r = 0.8`). -/
def JSNum.floorMul : JSNum → ℚ → JSNum
  | .num q, r => .num ((⌊q * r⌋ : ℤ) : ℚ)
  | .nan, _ => .nan
  | .inf, _ => .inf
  | .negInf, _ => .negInf

/-- The two-valued access-key toggle state (`type AccessKeyStatus`). -/
inductive AccessKeyStatus where
  | enabled
  | disabled
deriving DecidableEq

/-- Rendering of a status value as in the source's template strings. -/
def statusText : AccessKeyStatus → String
  | .enabled => "enabled"
  | .disabled => "disabled"

/-- The fixed metric tags (`MetricThreshold["name"]`). -/
inductive MetricName where
  | storage
  | classA
  | classB
deriving DecidableEq

/-- `describeMetric` from the source. -/
def describeMetric : MetricName → String
  | .storage => "Storage"
  | .classA => "Class A requests"
  | .classB => "Class B requests"

/-- The `MetricThreshold` record of the source: per-metric usage, quota and
re-enable threshold (each possibly `undefined`) plus the formatter used
only for human-readable messages. -/
structure MetricThreshold where
  name : MetricName
  usage : Option JSNum
  quota : Option JSNum
  reenable : Option JSNum
  formatter : Option JSNum → String

/-- The over-quota reason one metric contributes inside the evaluator loop
(`metric.quota !== undefined && metric.usage !== undefined && metric.usage >= metric.quota`). -/
def overQuotaReason (m : MetricThreshold) : Option String :=
  match m.quota, m.usage with
  | some q, some u =>
      if jsGe u q then
        some (describeMetric m.name ++ " " ++ m.formatter (some u) ++
          " exceeds quota " ++ m.formatter (some q))
      else none
  | _, _ => none

/-- All over-quota reasons collected by the evaluator loop. -/
def overQuotaReasons (ms : List MetricThreshold) : List String :=
  ms.filterMap overQuotaReason

/-- The re-enable check line one metric contributes to the message list
(pushed whenever both `reenable` and `usage` are present). -/
def reenableCheck (m : MetricThreshold) : Option String :=
  match m.reenable, m.usage with
  | some r, some u =>
      if jsLe u r then
        some (describeMetric m.name ++ " " ++ m.formatter (some u) ++
          " <= " ++ m.formatter (some r))
      else
        some (describeMetric m.name ++ " " ++ m.formatter (some u) ++
          " > " ++ m.formatter (some r))
  | _, _ => none

/-- All re-enable check lines collected by the evaluator loop. -/
def reenableChecks (ms : List MetricThreshold) : List String :=
  ms.filterMap reenableCheck

/-- The predicate of the `thresholds.every(...)` re-enable test: a metric
with `reenable` or `usage` absent is treated as satisfied. -/
def metricReenableOk (m : MetricThreshold) : Bool :=
  match m.reenable, m.usage with
  | some r, some u => jsLe u r
  | _, _ => true

/-- `shouldReenable` from the evaluator: every metric passes the re-enable test. -/
def shouldReenable (ms : List MetricThreshold) : Bool :=
  ms.all metricReenableOk

/-- The hysteresis evaluator's state decision (source lines 437-472):
`desiredStatus` starts as the current status, is forced to `disabled` when
any over-quota reason exists, and is set to `enabled` when every metric
passes the re-enable test. -/
def evalNextState (current : AccessKeyStatus) (ms : List MetricThreshold) :
    AccessKeyStatus :=
  if 0 < (overQuotaReasons ms).length then .disabled
  else if shouldReenable ms then .enabled
  else current

/-- `buildStatusMessage` from the source. The empty-string test mirrors the
`|| "no thresholds configured"` fallback on the joined reason list. -/
def buildStatusMessage (desired current : AccessKeyStatus)
    (overQuota reenableList : List String) : String :=
  if desired = .disabled ∧ 0 < overQuota.length then
    "Disabling access key: " ++ String.intercalate "; " overQuota ++ "."
  else if desired = .enabled ∧ current = .disabled then
    "Re-enabling access key: " ++ String.intercalate "; " reenableList ++ "."
  else
    "Keeping access key " ++ statusText current ++ ". Metrics: " ++
      (let joined := String.intercalate "; " (overQuota ++ reenableList)
       if joined = "" then "no thresholds configured" else joined) ++ "."

/-- `determineReenable` from the source: validates an explicit override
(finite and non-negative), clamps an override that exceeds the quota to
`floor(quota * 0.9)` while emitting a warning (the Bool component), and
defaults to `floor(quota * 0.8)` when a quota is present without an
override; no quota and no override yield no threshold. -/
def determineReenable (quota override : Option JSNum) :
    Except String (Option JSNum × Bool) :=
  match override with
  | some o =>
      if !o.isFinite || jsLt o (.num 0) then
        .error "Invalid re-enable threshold configuration"
      else
        match quota with
        | some q =>
            if jsGt o q then .ok (some (q.floorMul (9 / 10)), true)
            else .ok (some o, false)
        | none => .ok (some o, false)
  | none =>
      match quota with
      | none => .ok (none, false)
      | some q => .ok (some (q.floorMul (8 / 10)), false)

/-- Leading and trailing whitespace removal (JS `value.trim()`; the model
uses Lean's whitespace set, which covers the configuration strings in use). -/
def trimChars (cs : List Char) : List Char :=
  ((cs.dropWhile Char.isWhitespace).reverse.dropWhile Char.isWhitespace).reverse

/-- The decimal value of a digit run. -/
def decDigitsVal (cs : List Char) : ℚ :=
  ((cs.foldl (fun acc c => acc * 10 + (c.toNat - 48)) 0 : ℕ) : ℚ)

/-- The base-1024 multiplier table keyed by the lowercased unit suffix; an
absent unit defaults to bytes (`?? "b"`). -/
def sizeUnitMultiplier : List Char → Option ℚ
  | [] => some 1
  | ['b'] => some 1
  | ['k', 'b'] => some 1024
  | ['m', 'b'] => some (1024 ^ 2)
  | ['g', 'b'] => some (1024 ^ 3)
  | ['t', 'b'] => some (1024 ^ 4)
  | ['p', 'b'] => some (1024 ^ 5)
  | _ => none

/-- The size-string match of `parseSizeToBytes`: an integer digit run, an
optional fraction, optional whitespace, and an optional case-insensitive
unit suffix, anchored at both ends (the source's plain-number fast path
yields the same value as the unitless case here). Exact decimal
arithmetic stands in for JS doubles. -/
def parseSizeCore (cs : List Char) : Option ℚ :=
  let intDigits := cs.takeWhile Char.isDigit
  let rest1 := cs.dropWhile Char.isDigit
  if intDigits.isEmpty then none
  else
    let amountRest : Option (ℚ × List Char) :=
      match rest1 with
      | '.' :: more =>
          let fracDigits := more.takeWhile Char.isDigit
          if fracDigits.isEmpty then none
          else
            some (decDigitsVal intDigits +
                decDigitsVal fracDigits / (10 : ℚ) ^ fracDigits.length,
              more.dropWhile Char.isDigit)
      | _ => some (decDigitsVal intDigits, rest1)
    match amountRest with
    | none => none
    | some (amount, rest2) =>
        match sizeUnitMultiplier
            ((rest2.dropWhile Char.isWhitespace).map Char.toLower) with
        | none => none
        | some mult => some (amount * mult)

/-- `parseSizeToBytes` from the source on a string argument (the worker's
env values are strings, so the numeric-argument fast path is never
exercised): a falsy (empty) string and any string the size pattern
rejects yield NaN. -/
def parseSizeToBytes (value : String) : JSNum :=
  if value = "" then .nan
  else
    match parseSizeCore (trimChars value.toList) with
    | some q => .num q
    | none => .nan

/-- `parseOptionalSize` from the source: absent or empty (falsy) input
resolves to no value; otherwise the parsed size must be finite and
strictly positive (`!(Number.isFinite(parsed)) || parsed <= 0` throws). -/
def parseOptionalSize : Option String → Except String (Option JSNum)
  | none => .ok none
  | some s =>
      if s = "" then .ok none
      else
        let parsed := parseSizeToBytes s
        if !parsed.isFinite || jsLe parsed (.num 0) then
          .error "Invalid quota configuration (size value)"
        else .ok (some parsed)

/-- The re-enable leg of `normaliseThresholds` for the storage metric, with
the quota already resolved: the raw override string goes through
`parseOptionalSize`, and its outcome through `determineReenable`. -/
def resolveReenableOverride (quota : Option JSNum) (raw : Option String) :
    Except String (Option JSNum × Bool) :=
  match parseOptionalSize raw with
  | .error e => .error e
  | .ok override => determineReenable quota override

/-- A JSON value as delivered by the metrics provider. Object field lists
are kept in enumeration order. -/
inductive JVal where
  | num (x : JSNum)
  | str (s : String)
  | boolean (b : Bool)
  | null
  | arr (items : List JVal)
  | obj (fields : List (String × JVal))

/-- JS property read `value[k]` on an object's field list. -/
def lookupField (fields : List (String × JVal)) (k : String) : Option JVal :=
  (fields.find? (fun f => f.fst == k)).map (fun f => f.snd)

/-- First-non-null sequencing, as in `if (candidate !== null) return candidate`. -/
def firstSome {α : Type} (a b : Option α) : Option α :=
  match a with
  | some x => some x
  | none => b

/-- The direct hit test of the search loop:
`keys.includes(key) && typeof nested === "number" && Number.isFinite(nested)`. -/
def ffKeyHit (keys : List String) (k : String) : JVal → Option JSNum
  | .num x => if k ∈ keys ∧ x.isFinite then some x else none
  | _ => none

mutual
/-- `findFirstNumberByKeys` from the source. Scalars (including `null`,
which is `typeof "object"` but falsy) return `null`; `Object.entries` on
an array enumerates its elements under their decimal index strings. The
`typeof nested === "object"` recursive call is modelled by an unguarded
recursive call, which returns `none` on exactly the values the guard
excludes. -/
def findFirstNumberByKeys (keys : List String) : JVal → Option JSNum
  | .obj fields => ffEntries keys fields
  | .arr items => ffArrayEntries keys 0 items
  | _ => none

/-- The `for (const [key, nested] of Object.entries(value))` loop over an
object's fields: direct hit, then recursion, then the extra
`Array.isArray(nested)` item scan, then the rest of the loop. -/
def ffEntries (keys : List String) : List (String × JVal) → Option JSNum
  | [] => none
  | (k, v) :: rest =>
      firstSome (ffKeyHit keys k v)
        (firstSome (findFirstNumberByKeys keys v)
          (firstSome (arrayScanStep keys v) (ffEntries keys rest)))

/-- The same loop when `Object.entries` is applied to an array: entry keys
are the decimal index strings. -/
def ffArrayEntries (keys : List String) : Nat → List JVal → Option JSNum
  | _, [] => none
  | i, v :: rest =>
      firstSome (ffKeyHit keys (toString i) v)
        (firstSome (findFirstNumberByKeys keys v)
          (firstSome (arrayScanStep keys v) (ffArrayEntries keys (i + 1) rest)))

/-- The `if (Array.isArray(nested))` branch of the loop body: scan the
array's items. -/
def arrayScanStep (keys : List String) : JVal → Option JSNum
  | .arr items => ffItems keys items
  | _ => none

/-- The `for (const item of nested)` scan of the `Array.isArray` branch. -/
def ffItems (keys : List String) : List JVal → Option JSNum
  | [] => none
  | v :: rest => firstSome (findFirstNumberByKeys keys v) (ffItems keys rest)
end

/-- `extractMetric` from the source: a finite numeric payload is returned
directly, non-objects yield no metric, and otherwise the search starts
from `payload.result ?? payload` (the nullish coalescing falls back to the
full payload when the `result` field is absent or null). -/
def extractMetric (keys : List String) (payload : JVal) : Option JSNum :=
  match payload with
  | .num x => if x.isFinite then some x else none
  | .obj fields =>
      let start :=
        match lookupField fields "result" with
        | none => JVal.obj fields
        | some .null => JVal.obj fields
        | some v => v
      findFirstNumberByKeys keys start
  | .arr items => findFirstNumberByKeys keys (.arr items)
  | _ => none

/-- `CANDIDATE_USAGE_KEYS` from the source. -/
def CANDIDATE_USAGE_KEYS : List String :=
  ["usageBytes", "usage_bytes", "used_bytes", "storedBytes", "stored_bytes",
   "storageBytes", "storage_bytes", "storageUsageBytes", "size_bytes",
   "sizeBytes", "total_usage_bytes", "totalUsageBytes"]

/-- `CANDIDATE_CLASS_A_KEYS` from the source. -/
def CANDIDATE_CLASS_A_KEYS : List String :=
  ["classARequests", "class_a_requests", "classAOperations",
   "class_a_operations", "classA_ops", "class_a_ops", "classA",
   "requestsClassA", "request_class_a"]

/-- `CANDIDATE_CLASS_B_KEYS` from the source. -/
def CANDIDATE_CLASS_B_KEYS : List String :=
  ["classBRequests", "class_b_requests", "classBOperations",
   "class_b_operations", "classB_ops", "class_b_ops", "classB",
   "requestsClassB", "request_class_b"]

/-- `extractUsageBytes` from the source. -/
def extractUsageBytes (payload : JVal) : Option JSNum :=
  extractMetric CANDIDATE_USAGE_KEYS payload

/-- `extractClassARequests` from the source. -/
def extractClassARequests (payload : JVal) : Option JSNum :=
  extractMetric CANDIDATE_CLASS_A_KEYS payload

/-- `extractClassBRequests` from the source. -/
def extractClassBRequests (payload : JVal) : Option JSNum :=
  extractMetric CANDIDATE_CLASS_B_KEYS payload

mutual
/-- Claim-side search, following the words of claim C9: depth-first over
object fields in insertion order and then array elements in order,
returning the first finite numeric value whose owning field name is among
the candidate keys; array elements themselves carry no owning field name. -/
def claimSearch (keys : List String) : JVal → Option JSNum
  | .obj fields => claimSearchFields keys fields
  | .arr items => claimSearchItems keys items
  | _ => none

/-- Claim-side field walk: a field whose value is a finite number with a
candidate name is returned, otherwise the value is searched recursively. -/
def claimSearchFields (keys : List String) : List (String × JVal) → Option JSNum
  | [] => none
  | (k, v) :: rest =>
      firstSome
        (match v with
         | .num x => if k ∈ keys ∧ x.isFinite then some x else none
         | _ => none)
        (firstSome (claimSearch keys v) (claimSearchFields keys rest))

/-- Claim-side element walk: array elements are searched recursively. -/
def claimSearchItems (keys : List String) : List JVal → Option JSNum
  | [] => none
  | v :: rest => firstSome (claimSearch keys v) (claimSearchItems keys rest)
end

/-- Metric extraction as claim C9 states it: the traversal starts from the
payload's `result` substructure whenever that field is present, and from
the full payload otherwise. -/
def claimExtract (keys : List String) (payload : JVal) : Option JSNum :=
  match payload with
  | .obj fields =>
      match lookupField fields "result" with
      | some v => claimSearch keys v
      | none => claimSearch keys (.obj fields)
  | _ => claimSearch keys payload

mutual
/-- Amended-claim search: as the claim's depth-first search, except that a
direct numeric array element also matches when its decimal index string is
among the candidate keys. -/
def amendedSearch (keys : List String) : JVal → Option JSNum
  | .obj fields => amendedFields keys fields
  | .arr items => amendedElems keys 0 items
  | _ => none

/-- Amended-claim walk over object fields. -/
def amendedFields (keys : List String) : List (String × JVal) → Option JSNum
  | [] => none
  | (k, v) :: rest =>
      firstSome (ffKeyHit keys k v)
        (firstSome (amendedSearch keys v) (amendedFields keys rest))

/-- Amended-claim walk over array elements, keyed by decimal index strings. -/
def amendedElems (keys : List String) : Nat → List JVal → Option JSNum
  | _, [] => none
  | i, v :: rest =>
      firstSome (ffKeyHit keys (toString i) v)
        (firstSome (amendedSearch keys v) (amendedElems keys (i + 1) rest))
end

/-- Metric extraction as amended: a finite numeric payload is returned
directly; the search starts from the `result` field's value only when that
field is present with a non-null value, and from the full payload
otherwise. -/
def amendedExtract (keys : List String) (payload : JVal) : Option JSNum :=
  match payload with
  | .num x => if x.isFinite then some x else none
  | .obj fields =>
      let start :=
        match lookupField fields "result" with
        | none => JVal.obj fields
        | some .null => JVal.obj fields
        | some v => v
      amendedSearch keys start
  | .arr items => amendedSearch keys (.arr items)
  | _ => none

/-- The `UsageSnapshot` record produced by the usage fetch. -/
structure UsageSnapshot where
  storageBytes : Option JSNum
  classARequests : Option JSNum
  classBRequests : Option JSNum
deriving DecidableEq

/-- `fetchR2Usage` after a successful transport: the three extractions are
combined, and the fetch is a hard failure exactly when all of them come
back absent. -/
def fetchR2Usage (payload : JVal) : Except String UsageSnapshot :=
  let usage : UsageSnapshot :=
    { storageBytes := extractUsageBytes payload
      classARequests := extractClassARequests payload
      classBRequests := extractClassBRequests payload }
  if usage.storageBytes = none ∧ usage.classARequests = none ∧
      usage.classBRequests = none then
    .error "Could not determine any R2 usage metrics from API response"
  else
    .ok usage

/-- The declared shape of the access-key GET response body:
`{ result?: { status?: AccessKeyStatus } }`. -/
structure StatusResult where
  status : Option AccessKeyStatus

/-- The access-key GET response payload (the `result` wrapper, optional). -/
structure AccessKeyResponse where
  result : Option StatusResult

/-- `fetchAccessKeyStatus` after a successful transport:
`payload?.result?.status ?? "enabled"`. -/
def fetchAccessKeyStatus (resp : AccessKeyResponse) : AccessKeyStatus :=
  (resp.result.bind StatusResult.status).getD .enabled

/-- The persisted `StoredState` record. -/
structure StoredState where
  accessKeyStatus : AccessKeyStatus
  lastUsageBytes : Option JSNum
  quotaBytes : Option JSNum
  reenableThresholdBytes : Option JSNum
  lastClassARequests : Option JSNum
  classAQuota : Option JSNum
  classAReenableThreshold : Option JSNum
  lastClassBRequests : Option JSNum
  classBQuota : Option JSNum
  classBReenableThreshold : Option JSNum
  updatedAt : String
  message : Option String

/-- The per-metric slice of the result (`ThresholdSnapshot`). -/
structure ThresholdSnapshot where
  name : MetricName
  usage : Option JSNum
  quota : Option JSNum
  reenable : Option JSNum

/-- The caller-facing `RunResult`. -/
structure RunResult where
  success : Bool
  accessKeyStatus : AccessKeyStatus
  usage : UsageSnapshot
  thresholds : List ThresholdSnapshot
  updatedAt : String
  message : Option String

/-- An outbound side-effecting call made by the controller: the access-key
status PATCH, or the KV put of the new snapshot. -/
inductive OutboundCall where
  | setStatus (s : AccessKeyStatus)
  | kvPut (st : StoredState)

/-- Recogniser for the status PATCH call. -/
def isSetStatus : OutboundCall → Bool
  | .setStatus _ => true
  | .kvPut _ => false

/-- Recogniser for the KV put call. -/
def isKvPut : OutboundCall → Bool
  | .setStatus _ => false
  | .kvPut _ => true

/-- Whether an `Except` is the error case. -/
def exErrB {ε α : Type} : Except ε α → Bool
  | .error _ => true
  | .ok _ => false

/-- The usage-assignment loop of `runQuotaController` (lines 420-432):
each metric's `usage` field is filled from the usage snapshot by name. -/
def assignUsage (usage : UsageSnapshot) (ms : List MetricThreshold) :
    List MetricThreshold :=
  ms.map fun m =>
    { m with
      usage :=
        match m.name with
        | .storage => usage.storageBytes
        | .classA => usage.classARequests
        | .classB => usage.classBRequests }

/-- `storedState?.accessKeyStatus ?? (await fetchAccessKeyStatus(env))`. -/
def resolveCurrentStatus (stored : Option StoredState)
    (live : AccessKeyResponse) : AccessKeyStatus :=
  match stored with
  | some s => s.accessKeyStatus
  | none => fetchAccessKeyStatus live

/-- `thresholds.find((t) => t.name === n)`. -/
def findMetric (ms : List MetricThreshold) (n : MetricName) :
    Option MetricThreshold :=
  ms.find? (fun m => m.name == n)

/-- The decision and side-effect core of `runQuotaController` (lines
414-512), given its collaborator responses: the fetched usage snapshot,
the stored state (absent on first run), the live access-key payload used
as fallback, the thresholds from `normaliseThresholds`, and whether the
status PATCH would succeed. The second component is the ordered list of
outbound calls actually issued; a failing PATCH aborts the invocation
before the KV put. The environment-variable validation and transport
failures ahead of this logic are outside the model. -/
def runQuotaController (usage : UsageSnapshot) (storedState : Option StoredState)
    (live : AccessKeyResponse) (rawThresholds : List MetricThreshold)
    (setStatusOk : Bool) (timestamp : String) :
    Except String RunResult × List OutboundCall :=
  let thresholds := assignUsage usage rawThresholds
  let currentStatus := resolveCurrentStatus storedState live
  let oq := overQuotaReasons thresholds
  let rc := reenableChecks thresholds
  let desiredStatus := evalNextState currentStatus thresholds
  let toggleCalls : List OutboundCall :=
    if desiredStatus = currentStatus then [] else [.setStatus desiredStatus]
  if desiredStatus ≠ currentStatus ∧ setStatusOk = false then
    (.error "Failed to update access key status", toggleCalls)
  else
    let message := buildStatusMessage desiredStatus currentStatus oq rc
    let state : StoredState :=
      { accessKeyStatus := desiredStatus
        lastUsageBytes := usage.storageBytes
        quotaBytes := (findMetric thresholds .storage).bind MetricThreshold.quota
        reenableThresholdBytes :=
          (findMetric thresholds .storage).bind MetricThreshold.reenable
        lastClassARequests := usage.classARequests
        classAQuota := (findMetric thresholds .classA).bind MetricThreshold.quota
        classAReenableThreshold :=
          (findMetric thresholds .classA).bind MetricThreshold.reenable
        lastClassBRequests := usage.classBRequests
        classBQuota := (findMetric thresholds .classB).bind MetricThreshold.quota
        classBReenableThreshold :=
          (findMetric thresholds .classB).bind MetricThreshold.reenable
        updatedAt := timestamp
        message := some message }
    let snapshot := thresholds.map fun m =>
      ThresholdSnapshot.mk m.name m.usage m.quota m.reenable
    (.ok
      { success := true
        accessKeyStatus := desiredStatus
        usage := usage
        thresholds := snapshot
        updatedAt := timestamp
        message := some message },
      toggleCalls ++ [.kvPut state])

/-- A metric threshold entry with the message formatter left trivial (the
formatter only affects message text, never the state decision). -/
def mkMetric (n : MetricName) (u q r : Option JSNum) : MetricThreshold :=
  { name := n, usage := u, quota := q, reenable := r, formatter := fun _ => "" }

/-- The C1 configuration: a single governed storage metric with quota 100
and re-enable threshold 80, the other two metrics contributing nothing. -/
def c1Metrics (u : ℚ) : List MetricThreshold :=
  [mkMetric .storage (some (.num u)) (some (.num 100)) (some (.num 80)),
   mkMetric .classA none none none,
   mkMetric .classB none none none]

/-- Claim C1: for a single governed metric with quota 100 and re-enable 80,
usage 90 from `enabled` stays `enabled`; usage 100 forces `disabled` from
either state; usage 75 yields `enabled` from either state; and usage 85
from `disabled` stays `disabled` (the hysteresis band holds the state). -/
theorem spec_c1_hysteresis_band :
    evalNextState .enabled (c1Metrics 90) = .enabled ∧
    evalNextState .enabled (c1Metrics 100) = .disabled ∧
    evalNextState .disabled (c1Metrics 100) = .disabled ∧
    evalNextState .enabled (c1Metrics 75) = .enabled ∧
    evalNextState .disabled (c1Metrics 75) = .enabled ∧
    evalNextState .disabled (c1Metrics 85) = .disabled := by
  decide

/-- A metric with no quota but an explicit re-enable threshold 50 and
usage 60, as produced by `determineReenable` from an override without a
quota. -/
def c2BlockMetric : MetricThreshold :=
  mkMetric .storage (some (.num 60)) none (some (.num 50))

/-- Claim C2 counterexample: a metric with no configured quota can still
block re-enable. With `quota` absent but `reenable = 50` and `usage = 60`,
the evaluator keeps a disabled key disabled, whereas without the metric
the key would be re-enabled; the quota-less metric alone prevented the
transition to enabled, contradicting the claim. -/
theorem spec_c2_counterexample :
    c2BlockMetric.quota = none ∧
    evalNextState .disabled [c2BlockMetric] = .disabled ∧
    evalNextState .disabled [] = .enabled := by
  decide

/-- Claim C2 as amended: a metric with no configured quota never appears
among the over-quota reasons; if its re-enable threshold is also absent
(which is what threshold resolution yields when no override is supplied),
it never blocks re-enable and is fully inert: inserting it anywhere in the
metric list leaves the evaluator's decision unchanged. -/
theorem spec_c2_amended (m : MetricThreshold) (hq : m.quota = none) :
    overQuotaReason m = none ∧
    (m.reenable = none → metricReenableOk m = true) ∧
    (∀ (current : AccessKeyStatus) (pre post : List MetricThreshold),
      m.reenable = none →
      evalNextState current (pre ++ m :: post) = evalNextState current (pre ++ post)) ∧
    determineReenable none none = .ok (none, false) := by
  refine ⟨?_, ?_, ?_, rfl⟩
  · simp [overQuotaReason, hq]
  · intro hr
    simp [metricReenableOk, hr]
  · intro current pre post hr
    have hoq : overQuotaReasons (pre ++ m :: post) = overQuotaReasons (pre ++ post) := by
      simp [overQuotaReasons, List.filterMap_append, List.filterMap_cons,
        overQuotaReason, hq]
    have hsr : shouldReenable (pre ++ m :: post) = shouldReenable (pre ++ post) := by
      simp [shouldReenable, List.all_append, List.all_cons, metricReenableOk, hr]
    simp [evalNextState, hoq, hsr]

/-- Claim C2 witness: the amended statement at the concrete inert metric. -/
theorem spec_c2_witness :
    overQuotaReason (mkMetric .storage none none none) = none ∧
    metricReenableOk (mkMetric .storage none none none) = true ∧
    evalNextState .disabled [mkMetric .storage none none none] =
      evalNextState .disabled [] ∧
    determineReenable none none = .ok (none, false) := by
  have h := spec_c2_amended (mkMetric .storage none none none) rfl
  exact ⟨h.1, h.2.1 rfl, h.2.2.1 .disabled [] [] rfl, h.2.2.2⟩

/-- The three-metric list with nothing configured at all. -/
def zeroConfigMetrics : List MetricThreshold :=
  [mkMetric .storage none none none,
   mkMetric .classA none none none,
   mkMetric .classB none none none]

/-- Claim C3 counterexample: with zero metrics configured the evaluator's
`every` test is vacuously true, so the next state is `enabled` even from
`disabled` - not the current state as claimed. -/
theorem spec_c3_counterexample :
    evalNextState .disabled zeroConfigMetrics = .enabled ∧
    AccessKeyStatus.enabled ≠ .disabled := by
  decide

/-- Claim C3 as amended: with zero metrics configured the next state is
always `enabled` (the vacuous re-enable test): from `enabled` the state is
unchanged and the message notes "no thresholds configured", while from
`disabled` the key is re-enabled with the empty-reason message
"Re-enabling access key: .". -/
theorem spec_c3_amended (current : AccessKeyStatus) (ms : List MetricThreshold)
    (h : ∀ m ∈ ms, m.usage = none ∧ m.quota = none ∧ m.reenable = none) :
    evalNextState current ms = .enabled ∧
    buildStatusMessage (evalNextState current ms) current
        (overQuotaReasons ms) (reenableChecks ms) =
      (if current = .enabled then
        "Keeping access key enabled. Metrics: no thresholds configured."
      else "Re-enabling access key: .") := by
  have hoq : overQuotaReasons ms = [] := by
    refine List.filterMap_eq_nil_iff.mpr fun m hm => ?_
    simp [overQuotaReason, (h m hm).2.1]
  have hrc : reenableChecks ms = [] := by
    refine List.filterMap_eq_nil_iff.mpr fun m hm => ?_
    simp [reenableCheck, (h m hm).2.2]
  have hsr : shouldReenable ms = true := by
    refine List.all_eq_true.mpr fun m hm => ?_
    simp [metricReenableOk, (h m hm).2.2]
  have he : evalNextState current ms = .enabled := by
    simp [evalNextState, hoq, hsr]
  refine ⟨he, ?_⟩
  rw [he, hoq, hrc]
  cases current <;> decide

/-- Claim C3 witness: the amended statement at the all-absent three-metric
configuration with a disabled current state. -/
theorem spec_c3_witness :
    evalNextState .disabled zeroConfigMetrics = .enabled ∧
    buildStatusMessage (evalNextState .disabled zeroConfigMetrics) .disabled
        (overQuotaReasons zeroConfigMetrics) (reenableChecks zeroConfigMetrics) =
      "Re-enabling access key: ." := by
  have h := spec_c3_amended .disabled zeroConfigMetrics (by decide)
  exact ⟨h.1, h.2.trans (by decide)⟩

/-- Claim C4: the access-key set-status PATCH appears in the outbound call
trace exactly once when the evaluator's decision differs from the prior
state, and never when it coincides, for every input and regardless of
whether the PATCH would succeed. -/
theorem spec_c4_toggle_iff_change (usage : UsageSnapshot)
    (stored : Option StoredState) (live : AccessKeyResponse)
    (raw : List MetricThreshold) (ok : Bool) (ts : String) :
    (runQuotaController usage stored live raw ok ts).2.countP isSetStatus =
      if evalNextState (resolveCurrentStatus stored live) (assignUsage usage raw) =
          resolveCurrentStatus stored live then 0 else 1 := by
  by_cases h : evalNextState (resolveCurrentStatus stored live) (assignUsage usage raw) =
      resolveCurrentStatus stored live
  · simp [runQuotaController, h, isSetStatus, isKvPut, List.countP_cons]
  · cases ok with
    | false =>
        simp [runQuotaController, h, isSetStatus, List.countP_cons]
    | true =>
        simp [runQuotaController, h, isSetStatus, isKvPut,
          List.countP_append, List.countP_cons]

/-- Claim C5: when a state change is required but the set-status PATCH
fails, the invocation fails as a whole and the KV put of the new snapshot
is never issued, so the persisted prior state is left unchanged for the
next invocation to re-derive the decision from. -/
theorem spec_c5_toggle_failure (usage : UsageSnapshot)
    (stored : Option StoredState) (live : AccessKeyResponse)
    (raw : List MetricThreshold) (ts : String)
    (h : evalNextState (resolveCurrentStatus stored live) (assignUsage usage raw) ≠
        resolveCurrentStatus stored live) :
    exErrB (runQuotaController usage stored live raw false ts).1 = true ∧
    (runQuotaController usage stored live raw false ts).2.countP isKvPut = 0 := by
  simp [runQuotaController, h, exErrB, isKvPut, List.countP_cons]

/-- A stored snapshot recording a disabled key and nothing else. -/
def storedDisabled : StoredState :=
  { accessKeyStatus := .disabled
    lastUsageBytes := none, quotaBytes := none, reenableThresholdBytes := none
    lastClassARequests := none, classAQuota := none, classAReenableThreshold := none
    lastClassBRequests := none, classBQuota := none, classBReenableThreshold := none
    updatedAt := "", message := none }

/-- Claim C5 witness: a disabled stored state with no thresholds requires a
re-enable PATCH; with the PATCH failing the run errors and no KV put occurs. -/
theorem spec_c5_witness :
    exErrB (runQuotaController ⟨none, none, none⟩ (some storedDisabled) ⟨none⟩
        [] false "").1 = true ∧
    (runQuotaController ⟨none, none, none⟩ (some storedDisabled) ⟨none⟩
        [] false "").2.countP isKvPut = 0 :=
  spec_c5_toggle_failure ⟨none, none, none⟩ (some storedDisabled) ⟨none⟩ [] ""
    (by decide)

/-- Claim C6: an explicit re-enable override exceeding the quota is not an
error: resolution succeeds with `floor(quota * 0.9)` and the warning flag
set; with no override and a quota present it yields `floor(quota * 0.8)`
with no warning. -/
theorem spec_c6_clamp_default :
    (∀ q o : ℚ, 0 ≤ o → q < o →
      determineReenable (some (.num q)) (some (.num o)) =
        .ok (some (.num ((⌊q * (9 / 10)⌋ : ℤ) : ℚ)), true)) ∧
    (∀ q : ℚ,
      determineReenable (some (.num q)) none =
        .ok (some (.num ((⌊q * (8 / 10)⌋ : ℤ) : ℚ)), false)) := by
  constructor
  · intro q o h0 hqo
    have h1 : jsLt (.num o) (.num 0) = false := by
      simp [jsLt, not_lt.mpr h0]
    have h2 : jsGt (.num o) (.num q) = true := by
      simp [jsGt, jsLt, hqo]
    simp [determineReenable, JSNum.isFinite, h1, h2, JSNum.floorMul]
  · intro q
    simp [determineReenable, JSNum.floorMul]

/-- Claim C6 witness: quota 100 with override 150 resolves to re-enable 90
with a warning. -/
theorem spec_c6_witness :
    determineReenable (some (.num 100)) (some (.num 150)) =
      .ok (some (.num 90), true) := by
  have h := spec_c6_clamp_default.1 100 150 (by norm_num) (by norm_num)
  have hf : ((⌊(100 : ℚ) * (9 / 10)⌋ : ℤ) : ℚ) = 90 := by norm_num
  rw [hf] at h
  exact h

/-- The validation inside `determineReenable` alone rejects exactly the
non-finite or negative overrides; the parse stage in front of it is what
rejects zero, so this check never sees a non-positive value in the
program. -/
theorem determineReenable_err_iff (quota : Option JSNum) (o : JSNum) :
    exErrB (determineReenable quota (some o)) =
      (!o.isFinite || jsLt o (.num 0)) := by
  cases o with
  | num x =>
      by_cases hx : x < 0
      · simp [determineReenable, JSNum.isFinite, jsLt, exErrB, hx]
      · cases quota with
        | none => simp [determineReenable, JSNum.isFinite, jsLt, exErrB, hx]
        | some q =>
            by_cases hg : jsGt (.num x) q = true <;>
              simp [determineReenable, JSNum.isFinite, jsLt, exErrB, hx, hg]
  | nan => cases quota <;> simp [determineReenable, JSNum.isFinite, jsLt, exErrB]
  | inf => cases quota <;> simp [determineReenable, JSNum.isFinite, jsLt, exErrB]
  | negInf => cases quota <;> simp [determineReenable, JSNum.isFinite, jsLt, exErrB]

/-- Claim C8: the usage fetch is a hard failure exactly when all three
metric extractions come back absent; when at least one metric is present
the fetch succeeds and carries exactly the extraction results, absent
metrics tolerated as absent. -/
theorem spec_c8_all_absent (p : JVal) :
    (exErrB (fetchR2Usage p) =
      decide (extractUsageBytes p = none ∧ extractClassARequests p = none ∧
        extractClassBRequests p = none)) ∧
    (∀ u, fetchR2Usage p = .ok u →
      u = ⟨extractUsageBytes p, extractClassARequests p, extractClassBRequests p⟩) := by
  by_cases hc : extractUsageBytes p = none ∧ extractClassARequests p = none ∧
      extractClassBRequests p = none
  · refine ⟨by simp [fetchR2Usage, hc, exErrB], fun u hu => ?_⟩
    simp [fetchR2Usage, hc] at hu
  · refine ⟨by simp [fetchR2Usage, hc, exErrB], fun u hu => ?_⟩
    simp only [fetchR2Usage] at hu
    rw [if_neg hc] at hu
    cases hu
    rfl

/-- A payload carrying only a storage byte count. -/
def usageOnlyPayload : JVal := .obj [("usageBytes", .num (.num 5))]

/-- Claim C8 witness: with only the storage metric present the fetch is not
an error and the snapshot carries the one extracted value. -/
theorem spec_c8_witness :
    exErrB (fetchR2Usage usageOnlyPayload) = false ∧
    (⟨some (.num 5), none, none⟩ : UsageSnapshot) =
      ⟨extractUsageBytes usageOnlyPayload, extractClassARequests usageOnlyPayload,
        extractClassBRequests usageOnlyPayload⟩ := by
  refine ⟨(spec_c8_all_absent usageOnlyPayload).1.trans (by decide), ?_⟩
  exact (spec_c8_all_absent usageOnlyPayload).2 ⟨some (.num 5), none, none⟩ rfl

/-- Claim C10: with no prior snapshot the current state is resolved from
the live access-key response; a response that omits the status (whether
the `result` wrapper or its `status` field is missing) defaults to
`enabled`, and the resolution is always one of the two states, never an
error or a third value. -/
theorem spec_c10_fallback :
    (∀ live : AccessKeyResponse,
      resolveCurrentStatus none live = fetchAccessKeyStatus live) ∧
    (∀ live : AccessKeyResponse, live.result.bind StatusResult.status = none →
      fetchAccessKeyStatus live = .enabled) ∧
    (∀ live : AccessKeyResponse,
      fetchAccessKeyStatus live = .enabled ∨ fetchAccessKeyStatus live = .disabled) := by
  refine ⟨fun live => rfl, fun live h => by simp [fetchAccessKeyStatus, h],
    fun live => ?_⟩
  cases h : fetchAccessKeyStatus live with
  | enabled => exact Or.inl rfl
  | disabled => exact Or.inr rfl

/-- Claim C10 witness: a response with no `result` wrapper resolves to
`enabled`. -/
theorem spec_c10_witness : fetchAccessKeyStatus ⟨none⟩ = .enabled :=
  spec_c10_fallback.2.1 ⟨none⟩ rfl

/-- Unfolding `firstSome` on a hit. -/
theorem firstSome_some {α : Type} (x : α) (b : Option α) :
    firstSome (some x) b = some x := rfl

/-- Unfolding `firstSome` on a miss. -/
theorem firstSome_none {α : Type} (b : Option α) : firstSome none b = b := rfl

/-- A `firstSome` chain is `none` exactly when both parts are. -/
theorem firstSome_eq_none_iff {α : Type} (a b : Option α) :
    firstSome a b = none ↔ a = none ∧ b = none := by
  cases a <;> simp [firstSome]

/-- The extra `Array.isArray` item scan is subsumed by the
`Object.entries` pass over the same array: when the entries pass finds
nothing, neither does the item scan. -/
theorem ffItems_none_of_entries (keys : List String) :
    ∀ (items : List JVal) (i : Nat),
      ffArrayEntries keys i items = none → ffItems keys items = none := by
  intro items
  induction items with
  | nil => intro i _; rfl
  | cons v rest ih =>
      intro i h
      simp only [ffArrayEntries] at h
      rw [firstSome_eq_none_iff] at h
      obtain ⟨h1, h2⟩ := h
      rw [firstSome_eq_none_iff] at h2
      obtain ⟨h2a, h2b⟩ := h2
      rw [firstSome_eq_none_iff] at h2b
      obtain ⟨h2c, h4⟩ := h2b
      simp only [ffItems]
      rw [h2a, firstSome_none]
      exact ih (i + 1) h4

/-- A value on which the recursive search finds nothing also yields
nothing from the `Array.isArray` scan step. -/
theorem arrayScanStep_none (keys : List String) (v : JVal)
    (h : findFirstNumberByKeys keys v = none) :
    arrayScanStep keys v = none := by
  cases v with
  | arr items =>
      simp only [findFirstNumberByKeys] at h
      exact ffItems_none_of_entries keys items 0 h
  | num x => rfl
  | str s => rfl
  | boolean b => rfl
  | null => rfl
  | obj fields => rfl

mutual
/-- The source search agrees with the amended-claim search on every value. -/
theorem ffVal_amended (keys : List String) : (v : JVal) →
    findFirstNumberByKeys keys v = amendedSearch keys v
  | .num _ => rfl
  | .str _ => rfl
  | .boolean _ => rfl
  | .null => rfl
  | .obj fields => ffEntries_amended keys fields
  | .arr items => ffArrayEntries_amended keys 0 items

/-- The source field loop agrees with the amended-claim field walk. -/
theorem ffEntries_amended (keys : List String) : (l : List (String × JVal)) →
    ffEntries keys l = amendedFields keys l
  | [] => rfl
  | (k, v) :: rest => by
      have hv := ffVal_amended keys v
      have hr := ffEntries_amended keys rest
      simp only [ffEntries, amendedFields]
      rw [hv, hr]
      cases hA : amendedSearch keys v with
      | some x => simp only [firstSome_some]
      | none =>
          rw [arrayScanStep_none keys v (hv.trans hA)]
          simp only [firstSome_none]

/-- The source array-entries loop agrees with the amended-claim element walk. -/
theorem ffArrayEntries_amended (keys : List String) :
    (i : Nat) → (l : List JVal) →
      ffArrayEntries keys i l = amendedElems keys i l
  | _, [] => rfl
  | i, v :: rest => by
      have hv := ffVal_amended keys v
      have hr := ffArrayEntries_amended keys (i + 1) rest
      simp only [ffArrayEntries, amendedElems]
      rw [hv, hr]
      cases hA : amendedSearch keys v with
      | some x => simp only [firstSome_some]
      | none =>
          rw [arrayScanStep_none keys v (hv.trans hA)]
          simp only [firstSome_none]
end

/-- Claim C9 counterexample: on a payload that is itself a finite number
the source returns it directly even though it has no owning field name, so
extraction differs from the claim's traversal (which has no field to match
and must report absent). -/
theorem spec_c9_counterexample :
    extractMetric CANDIDATE_USAGE_KEYS (.num (.num 42)) = some (.num 42) ∧
    claimExtract CANDIDATE_USAGE_KEYS (.num (.num 42)) = none := by
  constructor <;> rfl

/-- Claim C9 as amended: extraction returns a finite numeric payload
directly; otherwise it returns the first finite numeric value in
depth-first order (object fields in insertion order, then array elements
in order) whose owning field name - or, for a direct numeric array
element, whose decimal index string - is among the candidate keys,
starting from the `result` field's value when that field is present with a
non-null value and from the full payload otherwise, and absent when no
such value exists. -/
theorem spec_c9_amended_equiv (keys : List String) (payload : JVal) :
    extractMetric keys payload = amendedExtract keys payload := by
  cases payload with
  | num x => rfl
  | str s => rfl
  | boolean b => rfl
  | null => rfl
  | arr items => exact ffVal_amended keys (.arr items)
  | obj fields =>
      simp only [extractMetric, amendedExtract]
      cases hlf : lookupField fields "result" with
      | none => exact ffVal_amended keys (.obj fields)
      | some v =>
          cases v with
          | num x => exact ffVal_amended keys (.num x)
          | str s => exact ffVal_amended keys (.str s)
          | boolean b => exact ffVal_amended keys (.boolean b)
          | null => exact ffVal_amended keys (.obj fields)
          | arr items => exact ffVal_amended keys (.arr items)
          | obj fs => exact ffVal_amended keys (.obj fs)

/-- A non-empty override string whose parse fails the finite-positive guard
makes `parseOptionalSize` abort with the invalid-configuration error. -/
theorem parseOptionalSize_err (s : String) (hs : ¬(s = ""))
    (hbad : (!(parseSizeToBytes s).isFinite ||
      jsLe (parseSizeToBytes s) (.num 0)) = true) :
    parseOptionalSize (some s) =
      .error "Invalid quota configuration (size value)" := by
  simp only [parseOptionalSize]
  rw [if_neg hs, if_pos hbad]

/-- A non-empty override string whose parse passes the finite-positive
guard makes `parseOptionalSize` return the parsed value. -/
theorem parseOptionalSize_ok (s : String) (hs : ¬(s = ""))
    (hgood : (!(parseSizeToBytes s).isFinite ||
      jsLe (parseSizeToBytes s) (.num 0)) = false) :
    parseOptionalSize (some s) = .ok (some (parseSizeToBytes s)) := by
  simp only [parseOptionalSize]
  rw [if_neg hs, if_neg (by simp [hgood])]

/-- Claim C7 counterexample: a zero override is finite and non-negative,
so the claim says resolution accepts it, but the configured string "0"
parses to 0 and `parseOptionalSize` aborts on `parsed <= 0` before
`determineReenable` (whose own validation would accept 0) can run. -/
theorem spec_c7_counterexample :
    (JSNum.num 0).isFinite = true ∧
    jsLt (.num 0) (.num 0) = false ∧
    parseSizeToBytes "0" = .num 0 ∧
    parseOptionalSize (some "0") =
      .error "Invalid quota configuration (size value)" ∧
    resolveReenableOverride (some (.num 100)) (some "0") =
      .error "Invalid quota configuration (size value)" ∧
    exErrB (determineReenable (some (.num 100)) (some (.num 0))) = false := by
  have hz : parseSizeToBytes "0" = .num 0 := by
    have h1 : parseSizeToBytes "0" = .num (((0 : ℕ) : ℚ) * 1) := rfl
    rw [h1]
    norm_num
  have hps : parseOptionalSize (some "0") =
      .error "Invalid quota configuration (size value)" := by
    refine parseOptionalSize_err "0" (by decide) ?_
    rw [hz]
    decide
  refine ⟨rfl, by decide, hz, hps, ?_, by decide⟩
  unfold resolveReenableOverride
  rw [hps]

/-- Claim C7 as amended: resolving an explicit (non-empty) re-enable
override fails with the invalid-configuration error exactly when the raw
string parses to a non-finite or non-positive value, so zero is rejected
at the parse stage; every override parsing to a finite, strictly positive
value is accepted, whatever the quota, and `determineReenable`'s own
non-finite/negative validation is unreachable on this path. -/
theorem spec_c7_amended (quota : Option JSNum) (s : String) (hs : ¬(s = "")) :
    exErrB (resolveReenableOverride quota (some s)) =
      (!(parseSizeToBytes s).isFinite || jsLe (parseSizeToBytes s) (.num 0)) := by
  by_cases hbad : (!(parseSizeToBytes s).isFinite ||
      jsLe (parseSizeToBytes s) (.num 0)) = true
  · unfold resolveReenableOverride
    rw [parseOptionalSize_err s hs hbad, hbad]
    rfl
  · have hgood : (!(parseSizeToBytes s).isFinite ||
        jsLe (parseSizeToBytes s) (.num 0)) = false := Bool.eq_false_iff.mpr hbad
    unfold resolveReenableOverride
    rw [parseOptionalSize_ok s hs hgood, hgood]
    rw [determineReenable_err_iff]
    cases hp : parseSizeToBytes s with
    | num x =>
        rw [hp] at hgood
        have hxle : ¬(x ≤ 0) := by simpa [JSNum.isFinite, jsLe] using hgood
        simp only [JSNum.isFinite, Bool.not_true, Bool.false_or, jsLt]
        exact decide_eq_false fun hlt => hxle hlt.le
    | nan => rw [hp] at hgood; simp [JSNum.isFinite, jsLe] at hgood
    | inf => rw [hp] at hgood; simp [JSNum.isFinite, jsLe] at hgood
    | negInf => rw [hp] at hgood; simp [JSNum.isFinite, jsLe] at hgood

/-- Claim C7 witness: the amended statement at quota 100 with the override
string "80", which parses to the finite positive 80 and is accepted. -/
theorem spec_c7_witness :
    exErrB (resolveReenableOverride (some (.num 100)) (some "80")) = false := by
  have h80 : parseSizeToBytes "80" = .num 80 := by
    have h1 : parseSizeToBytes "80" = .num (((80 : ℕ) : ℚ) * 1) := rfl
    rw [h1]
    norm_num
  have h := spec_c7_amended (some (.num 100)) "80" (by decide)
  rw [h80] at h
  exact h.trans (by decide)
